import Mathlib

/-!
# MSCMP injector: the Mono call-table loader (`MonoLoader.h`)

A shallow embedding of `class Mono`: the private module handle, the member
template `GetFunctionAddress`, and the seventeen public function-pointer
fields, over a small model of the three platform calls the loader relies on
(`LoadLibrary`, `GetProcAddress`, `FreeLibrary`).

Pointers and handles are natural numbers, `0` standing for `nullptr`.
Every platform call is appended to a trace, so that "a lookup was made" and
"the library was released" are observable facts of a run.
-/

namespace MSCMP

/-! ## Platform model -/

/-- Module handle (`HMODULE`); `0` is `nullptr`. -/
abbrev HMODULE := Nat

/-- Procedure address (`FARPROC`, then cast to the slot's function type); `0` is `nullptr`. -/
abbrev FARPROC := Nat

/-- Export table of an image: exported name and its offset from the image base. -/
abbrev Exports := List (String × Nat)

/-- Library file on disk: the base address it maps at and what it exports. -/
structure Image where
  base : Nat
  exports : Exports
deriving DecidableEq, Repr

/-- Platform calls made by the loader, in the order they are recorded. -/
inductive OsCall where
  | LoadLibrary (path : String)
  | GetProcAddress (h : HMODULE) (name : String)
  | FreeLibrary (h : HMODULE)
deriving DecidableEq, Repr

/-- Process environment: library files by path, the modules currently mapped
(one entry per outstanding reference), and the record of platform calls. -/
structure Os where
  disk : List (String × Image)
  loaded : List (HMODULE × Exports)
  trace : List OsCall
deriving DecidableEq, Repr

/-- Remove the first entry with the given handle (one reference is dropped). -/
def dropRef (h : HMODULE) : List (HMODULE × Exports) → List (HMODULE × Exports)
  | [] => []
  | e :: rest => if e.1 = h then rest else e :: dropRef h rest

/-- Platform `LoadLibrary`: maps the image found at `path` and returns its base
address as the handle; returns `nullptr` when there is no image at `path`
(an image is never mapped at address zero). -/
def Os.LoadLibrary (os : Os) (path : String) : Os × HMODULE :=
  match os.disk.lookup path with
  | none => ({ os with trace := os.trace ++ [OsCall.LoadLibrary path] }, 0)
  | some img =>
    if img.base = 0 then ({ os with trace := os.trace ++ [OsCall.LoadLibrary path] }, 0)
    else ({ os with loaded := (img.base, img.exports) :: os.loaded,
                    trace := os.trace ++ [OsCall.LoadLibrary path] }, img.base)

/-- What module `h` exports under exactly `name`, if `h` is mapped and has such
an export: the module base plus the export's offset. -/
def exported (loaded : List (HMODULE × Exports)) (h : HMODULE) (name : String) :
    Option FARPROC :=
  match loaded.lookup h with
  | none => none
  | some ex =>
    match ex.lookup name with
    | none => none
    | some off => some (h + off)

/-- The address looked up for `(h, name)` among the mapped modules: the export's
address, or `nullptr` when `h` is not a mapped module or exports no such name. -/
def procAddress (loaded : List (HMODULE × Exports)) (h : HMODULE) (name : String) : FARPROC :=
  match exported loaded h name with
  | none => 0
  | some p => p

/-- Platform `GetProcAddress`: records the call and returns the address exported
by module `h` under exactly `name`, or `nullptr` when there is none. -/
def Os.GetProcAddress (os : Os) (h : HMODULE) (name : String) : Os × FARPROC :=
  ({ os with trace := os.trace ++ [OsCall.GetProcAddress h name] },
   procAddress os.loaded h name)

/-- Platform `FreeLibrary`: drops one reference to module `h`. -/
def Os.FreeLibrary (os : Os) (h : HMODULE) : Os :=
  { os with loaded := dropRef h os.loaded, trace := os.trace ++ [OsCall.FreeLibrary h] }

/-- Number of `GetProcAddress` calls recorded in a trace. -/
def lookups (t : List OsCall) : Nat :=
  (t.filter (fun c => match c with | OsCall.GetProcAddress _ _ => true | _ => false)).length

/-- Number of times module `h` was released in a trace. -/
def releases (h : HMODULE) (t : List OsCall) : Nat :=
  t.count (OsCall.FreeLibrary h)

/-! ## `class Mono` -/

/-- The loader object: the private `MonoDllModule` and the public call-table
fields, each with its default member initialiser `nullptr`. -/
structure Mono where
  MonoDllModule : HMODULE := 0
  mono_get_root_domain : FARPROC := 0
  mono_thread_attach : FARPROC := 0
  mono_unity_set_vprintf_func : FARPROC := 0
  mono_class_from_name : FARPROC := 0
  mono_class_get_method_from_name : FARPROC := 0
  mono_runtime_invoke : FARPROC := 0
  mono_domain_assembly_open : FARPROC := 0
  mono_assembly_get_image : FARPROC := 0
  mono_domain_get : FARPROC := 0
  mono_thread_get_main : FARPROC := 0
  mono_jit_parse_options : FARPROC := 0
  mono_debug_init : FARPROC := 0
  mono_set_commandline_arguments : FARPROC := 0
  mono_add_internal_call : FARPROC := 0
  mono_string_to_utf8 : FARPROC := 0
  g_free : FARPROC := 0
  mono_print_unhandled_exception : FARPROC := 0
deriving DecidableEq, Repr

/-- The public call-table fields of `Mono`, in declaration order. -/
inductive Slot where
  | mono_get_root_domain
  | mono_thread_attach
  | mono_unity_set_vprintf_func
  | mono_class_from_name
  | mono_class_get_method_from_name
  | mono_runtime_invoke
  | mono_domain_assembly_open
  | mono_assembly_get_image
  | mono_domain_get
  | mono_thread_get_main
  | mono_jit_parse_options
  | mono_debug_init
  | mono_set_commandline_arguments
  | mono_add_internal_call
  | mono_string_to_utf8
  | g_free
  | mono_print_unhandled_exception
deriving DecidableEq, Repr

/-- Every call-table field, in declaration order. -/
def Slot.all : List Slot :=
  [Slot.mono_get_root_domain, Slot.mono_thread_attach, Slot.mono_unity_set_vprintf_func,
   Slot.mono_class_from_name, Slot.mono_class_get_method_from_name, Slot.mono_runtime_invoke,
   Slot.mono_domain_assembly_open, Slot.mono_assembly_get_image, Slot.mono_domain_get,
   Slot.mono_thread_get_main, Slot.mono_jit_parse_options, Slot.mono_debug_init,
   Slot.mono_set_commandline_arguments, Slot.mono_add_internal_call, Slot.mono_string_to_utf8,
   Slot.g_free, Slot.mono_print_unhandled_exception]

/-- The declared name of a call-table field. -/
def Slot.name : Slot → String
  | Slot.mono_get_root_domain => "mono_get_root_domain"
  | Slot.mono_thread_attach => "mono_thread_attach"
  | Slot.mono_unity_set_vprintf_func => "mono_unity_set_vprintf_func"
  | Slot.mono_class_from_name => "mono_class_from_name"
  | Slot.mono_class_get_method_from_name => "mono_class_get_method_from_name"
  | Slot.mono_runtime_invoke => "mono_runtime_invoke"
  | Slot.mono_domain_assembly_open => "mono_domain_assembly_open"
  | Slot.mono_assembly_get_image => "mono_assembly_get_image"
  | Slot.mono_domain_get => "mono_domain_get"
  | Slot.mono_thread_get_main => "mono_thread_get_main"
  | Slot.mono_jit_parse_options => "mono_jit_parse_options"
  | Slot.mono_debug_init => "mono_debug_init"
  | Slot.mono_set_commandline_arguments => "mono_set_commandline_arguments"
  | Slot.mono_add_internal_call => "mono_add_internal_call"
  | Slot.mono_string_to_utf8 => "mono_string_to_utf8"
  | Slot.g_free => "g_free"
  | Slot.mono_print_unhandled_exception => "mono_print_unhandled_exception"

/-- The names of the declared call-table fields, in declaration order. -/
def declaredNames : List String := Slot.all.map Slot.name

/-- Reading a public call-table field. -/
def Mono.slot (self : Mono) : Slot → FARPROC
  | Slot.mono_get_root_domain => self.mono_get_root_domain
  | Slot.mono_thread_attach => self.mono_thread_attach
  | Slot.mono_unity_set_vprintf_func => self.mono_unity_set_vprintf_func
  | Slot.mono_class_from_name => self.mono_class_from_name
  | Slot.mono_class_get_method_from_name => self.mono_class_get_method_from_name
  | Slot.mono_runtime_invoke => self.mono_runtime_invoke
  | Slot.mono_domain_assembly_open => self.mono_domain_assembly_open
  | Slot.mono_assembly_get_image => self.mono_assembly_get_image
  | Slot.mono_domain_get => self.mono_domain_get
  | Slot.mono_thread_get_main => self.mono_thread_get_main
  | Slot.mono_jit_parse_options => self.mono_jit_parse_options
  | Slot.mono_debug_init => self.mono_debug_init
  | Slot.mono_set_commandline_arguments => self.mono_set_commandline_arguments
  | Slot.mono_add_internal_call => self.mono_add_internal_call
  | Slot.mono_string_to_utf8 => self.mono_string_to_utf8
  | Slot.g_free => self.g_free
  | Slot.mono_print_unhandled_exception => self.mono_print_unhandled_exception

/-- Assigning to a public call-table field (the fields are not `const`). -/
def Mono.setSlot (self : Mono) (s : Slot) (v : FARPROC) : Mono :=
  match s with
  | Slot.mono_get_root_domain => { self with mono_get_root_domain := v }
  | Slot.mono_thread_attach => { self with mono_thread_attach := v }
  | Slot.mono_unity_set_vprintf_func => { self with mono_unity_set_vprintf_func := v }
  | Slot.mono_class_from_name => { self with mono_class_from_name := v }
  | Slot.mono_class_get_method_from_name => { self with mono_class_get_method_from_name := v }
  | Slot.mono_runtime_invoke => { self with mono_runtime_invoke := v }
  | Slot.mono_domain_assembly_open => { self with mono_domain_assembly_open := v }
  | Slot.mono_assembly_get_image => { self with mono_assembly_get_image := v }
  | Slot.mono_domain_get => { self with mono_domain_get := v }
  | Slot.mono_thread_get_main => { self with mono_thread_get_main := v }
  | Slot.mono_jit_parse_options => { self with mono_jit_parse_options := v }
  | Slot.mono_debug_init => { self with mono_debug_init := v }
  | Slot.mono_set_commandline_arguments => { self with mono_set_commandline_arguments := v }
  | Slot.mono_add_internal_call => { self with mono_add_internal_call := v }
  | Slot.mono_string_to_utf8 => { self with mono_string_to_utf8 := v }
  | Slot.g_free => { self with g_free := v }
  | Slot.mono_print_unhandled_exception => { self with mono_print_unhandled_exception := v }

/-- Ways an operation of the loader stops without a result. -/
inductive Failure where
  /-- The check `assert(MonoDllModule)` failed in a build with assertions enabled:
  the process is aborted. -/
  | AssertionFailed
  /-- Resolve was requested before a library was loaded. -/
  | UseBeforeLoad
  /-- The library at the given path could not be mapped. -/
  | LibraryLoadError (path : String)
  /-- A load was requested while a library is still held. -/
  | AlreadyLoaded
deriving DecidableEq, Repr

/-- The member template `Mono::GetFunctionAddress<FUNCTION_TYPE_T>`, in a build
with the macro `NDEBUG` defined (`true`) or not (`false`).  Without `NDEBUG`,
`assert(MonoDllModule)` aborts the process when no module is held; with
`NDEBUG` the assertion expands to nothing.  The member then returns what
`GetProcAddress` gives for `(MonoDllModule, FunctionName)`, cast to the slot's
function type (the casts keep the address).  The member is `const`: the object
is not modified. -/
def Mono.GetFunctionAddress (NDEBUG : Bool) (os : Os) (self : Mono) (FunctionName : String) :
    Os × Except Failure FARPROC :=
  if NDEBUG = false ∧ self.MonoDllModule = 0 then (os, Except.error Failure.AssertionFailed)
  else
    ((os.GetProcAddress self.MonoDllModule FunctionName).1,
     Except.ok (os.GetProcAddress self.MonoDllModule FunctionName).2)

/-- A `GetFunctionAddress` call as an operation on the whole state: the member
is declared `const`, so the object after the call is the object before it. -/
def Mono.GetFunctionAddressStep (NDEBUG : Bool) (os : Os) (self : Mono)
    (FunctionName : String) : Os × Mono × Except Failure FARPROC :=
  ((self.GetFunctionAddress NDEBUG os FunctionName).1, self,
   (self.GetFunctionAddress NDEBUG os FunctionName).2)

/-- Reading a call-table field, as an operation on the whole state: the value
of the field, with the environment and the object as they were. -/
def Mono.Get (os : Os) (self : Mono) (s : Slot) : Os × Mono × FARPROC :=
  (os, self, self.slot s)

/-- The implicitly-defined copy constructor: `Mono` declares a destructor but
neither declares nor deletes a copy constructor, so a copy is made member by
member, the private `MonoDllModule` included. -/
def Mono.copy (self : Mono) : Mono :=
  { MonoDllModule := self.MonoDllModule
    mono_get_root_domain := self.mono_get_root_domain
    mono_thread_attach := self.mono_thread_attach
    mono_unity_set_vprintf_func := self.mono_unity_set_vprintf_func
    mono_class_from_name := self.mono_class_from_name
    mono_class_get_method_from_name := self.mono_class_get_method_from_name
    mono_runtime_invoke := self.mono_runtime_invoke
    mono_domain_assembly_open := self.mono_domain_assembly_open
    mono_assembly_get_image := self.mono_assembly_get_image
    mono_domain_get := self.mono_domain_get
    mono_thread_get_main := self.mono_thread_get_main
    mono_jit_parse_options := self.mono_jit_parse_options
    mono_debug_init := self.mono_debug_init
    mono_set_commandline_arguments := self.mono_set_commandline_arguments
    mono_add_internal_call := self.mono_add_internal_call
    mono_string_to_utf8 := self.mono_string_to_utf8
    g_free := self.g_free
    mono_print_unhandled_exception := self.mono_print_unhandled_exception }

/-! ## Operations whose bodies are outside the header -/

/-- Modelled from the spec: the table and the list of failed names that Resolve
produces (the header has no member holding either; the body of `Mono::Setup`,
which fills the fields, is not in the header). -/
structure Resolved where
  table : List (String × FARPROC)
  unresolved : List String
deriving DecidableEq, Repr

/-- Modelled from the spec: Get on a produced table (the body that consumes the
table is not in the header): the entry recorded under `name`, or the unresolved
marker when there is none. -/
def Resolved.Get (r : Resolved) (name : String) : FARPROC :=
  match r.table.lookup name with
  | none => 0
  | some p => p

/-- Modelled from the spec: the per-symbol loop of Resolve (the body of
`Mono::Setup` is not in the header): each name in turn is looked up with
`GetFunctionAddress`; the outcome is recorded under the name, and a name whose
lookup gave the unresolved marker is added to the list of failed names. -/
def resolveLoop (NDEBUG : Bool) (os : Os) (self : Mono) :
    List String → Os × Except Failure (List (String × FARPROC) × List String)
  | [] => (os, Except.ok ([], []))
  | name :: rest =>
    match self.GetFunctionAddress NDEBUG os name with
    | (os1, Except.error e) => (os1, Except.error e)
    | (os1, Except.ok p) =>
      match resolveLoop NDEBUG os1 self rest with
      | (os2, Except.error e) => (os2, Except.error e)
      | (os2, Except.ok (tbl, bad)) =>
        (os2, Except.ok ((name, p) :: tbl, if p = 0 then name :: bad else bad))

/-- Modelled from the spec: the value a field takes when a produced table is
stored (the body of `Mono::Setup` is not in the header): the table's entry for
the field's name when there is one, the old value otherwise. -/
def pick (tbl : List (String × FARPROC)) (name : String) (old : FARPROC) : FARPROC :=
  match tbl.lookup name with
  | none => old
  | some p => p

/-- Modelled from the spec: storing a produced table in the loader (the body of
`Mono::Setup` is not in the header): every call-table field whose declared name
has an entry takes that entry. -/
def Mono.store (self : Mono) (tbl : List (String × FARPROC)) : Mono :=
  { MonoDllModule := self.MonoDllModule
    mono_get_root_domain := pick tbl "mono_get_root_domain" self.mono_get_root_domain
    mono_thread_attach := pick tbl "mono_thread_attach" self.mono_thread_attach
    mono_unity_set_vprintf_func :=
      pick tbl "mono_unity_set_vprintf_func" self.mono_unity_set_vprintf_func
    mono_class_from_name := pick tbl "mono_class_from_name" self.mono_class_from_name
    mono_class_get_method_from_name :=
      pick tbl "mono_class_get_method_from_name" self.mono_class_get_method_from_name
    mono_runtime_invoke := pick tbl "mono_runtime_invoke" self.mono_runtime_invoke
    mono_domain_assembly_open :=
      pick tbl "mono_domain_assembly_open" self.mono_domain_assembly_open
    mono_assembly_get_image := pick tbl "mono_assembly_get_image" self.mono_assembly_get_image
    mono_domain_get := pick tbl "mono_domain_get" self.mono_domain_get
    mono_thread_get_main := pick tbl "mono_thread_get_main" self.mono_thread_get_main
    mono_jit_parse_options := pick tbl "mono_jit_parse_options" self.mono_jit_parse_options
    mono_debug_init := pick tbl "mono_debug_init" self.mono_debug_init
    mono_set_commandline_arguments :=
      pick tbl "mono_set_commandline_arguments" self.mono_set_commandline_arguments
    mono_add_internal_call := pick tbl "mono_add_internal_call" self.mono_add_internal_call
    mono_string_to_utf8 := pick tbl "mono_string_to_utf8" self.mono_string_to_utf8
    g_free := pick tbl "g_free" self.g_free
    mono_print_unhandled_exception :=
      pick tbl "mono_print_unhandled_exception" self.mono_print_unhandled_exception }

/-- Modelled from the spec: Resolve(specs) (the body of `Mono::Setup` is not in
the header).  Requires the loaded state and reports `UseBeforeLoad` otherwise,
leaving everything as it was; in the loaded state it runs the per-symbol loop,
stores the table in the loader and returns it with the list of failed names. -/
def Mono.Resolve (NDEBUG : Bool) (os : Os) (self : Mono) (specs : List String) :
    Os × Mono × Except Failure Resolved :=
  if self.MonoDllModule = 0 then (os, self, Except.error Failure.UseBeforeLoad)
  else
    match resolveLoop NDEBUG os self specs with
    | (os1, Except.error e) => (os1, self, Except.error e)
    | (os1, Except.ok (tbl, bad)) => (os1, self.store tbl, Except.ok ⟨tbl, bad⟩)

/-- Modelled from the spec: Load(path) (the body of `Mono::Setup` is not in the
header).  Loading into a loader that already holds a library is reported and
changes nothing; otherwise the library at `path` is mapped, and on failure the
loader stays unloaded and `LibraryLoadError` names the path. -/
def Mono.Load (os : Os) (self : Mono) (path : String) : Os × Mono × Except Failure Unit :=
  if self.MonoDllModule = 0 then
    if (os.LoadLibrary path).2 = 0 then
      ((os.LoadLibrary path).1, self, Except.error (Failure.LibraryLoadError path))
    else
      ((os.LoadLibrary path).1, { self with MonoDllModule := (os.LoadLibrary path).2 },
       Except.ok ())
  else (os, self, Except.error Failure.AlreadyLoaded)

/-- Modelled from the spec: `Mono::Setup(MonoDllPath)` (declared in the header,
body not in it) is Load followed by Resolve over the declared names; a failed
Load is returned at once and Resolve is not attempted. -/
def Mono.Setup (NDEBUG : Bool) (os : Os) (self : Mono) (MonoDllPath : String) :
    Os × Mono × Except Failure Resolved :=
  match self.Load os MonoDllPath with
  | (os1, m1, Except.error e) => (os1, m1, Except.error e)
  | (os1, m1, Except.ok _) => m1.Resolve NDEBUG os1 declaredNames

/-- Modelled from the spec: Unload / destruction (`Mono::~Mono` is declared in
the header, body not in it).  A held library is released and the loader returns
to the unloaded state with every slot unresolved; with nothing held there is
nothing to release. -/
def Mono.Unload (os : Os) (self : Mono) : Os × Mono :=
  if self.MonoDllModule = 0 then (os, self)
  else (os.FreeLibrary self.MonoDllModule, {})

/-- Unload / destruction run `k` times in a row on the same loader object. -/
def Mono.UnloadTimes : Nat → Os → Mono → Os × Mono
  | 0, os, self => (os, self)
  | k + 1, os, self => Mono.UnloadTimes k (self.Unload os).1 (self.Unload os).2

/-- What a caller can do with a loader object through its public interface. -/
inductive CallerOp where
  | Setup (MonoDllPath : String)
  | Destroy
  | Read (s : Slot)
  | Write (s : Slot) (v : FARPROC)
deriving DecidableEq, Repr

/-- Effect of a caller operation on the environment and the loader object. -/
def CallerOp.run (NDEBUG : Bool) (os : Os) (self : Mono) : CallerOp → Os × Mono
  | CallerOp.Setup path => ((self.Setup NDEBUG os path).1, (self.Setup NDEBUG os path).2.1)
  | CallerOp.Destroy => self.Unload os
  | CallerOp.Read s => ((self.Get os s).1, (self.Get os s).2.1)
  | CallerOp.Write s v => (os, self.setSlot s v)

/-! ## Sample environment -/

/-- A test library exporting `alpha` and `beta`, mapped at base `4096`. -/
def testImage : Image := { base := 4096, exports := [("alpha", 16), ("beta", 32)] }

/-- An environment with the test library on disk at `test.dll` and nothing mapped. -/
def testOs : Os := { disk := [("test.dll", testImage)], loaded := [], trace := [] }

/-- The environment after the test library has been mapped. -/
def testOsLoaded : Os :=
  { disk := [("test.dll", testImage)], loaded := [(4096, testImage.exports)],
    trace := [OsCall.LoadLibrary "test.dll"] }

/-- A loader holding the test library. -/
def testMono : Mono := { MonoDllModule := 4096 }

/-- A runtime library exporting every declared name, mapped at base `65536`. -/
def monoImage : Image :=
  { base := 65536
    exports := [("mono_get_root_domain", 16), ("mono_thread_attach", 32),
      ("mono_unity_set_vprintf_func", 48), ("mono_class_from_name", 64),
      ("mono_class_get_method_from_name", 80), ("mono_runtime_invoke", 96),
      ("mono_domain_assembly_open", 112), ("mono_assembly_get_image", 128),
      ("mono_domain_get", 144), ("mono_thread_get_main", 160),
      ("mono_jit_parse_options", 176), ("mono_debug_init", 192),
      ("mono_set_commandline_arguments", 208), ("mono_add_internal_call", 224),
      ("mono_string_to_utf8", 240), ("g_free", 256),
      ("mono_print_unhandled_exception", 272)] }

/-- An environment with the runtime library on disk at `mono.dll` and nothing mapped. -/
def monoOs : Os := { disk := [("mono.dll", monoImage)], loaded := [], trace := [] }

/-! ## Facts about the platform model and the field accessors -/

theorem exported_ne_zero {loaded : List (HMODULE × Exports)} {h : HMODULE} {name : String}
    {a : FARPROC} (hh : h ≠ 0) (he : exported loaded h name = some a) : a ≠ 0 := by
  unfold exported at he
  split at he
  · cases he
  · split at he
    · cases he
    · cases he
      exact fun hz => hh (Nat.eq_zero_of_add_eq_zero_right hz)

theorem procAddress_of_some {loaded : List (HMODULE × Exports)} {h : HMODULE} {name : String}
    {a : FARPROC} (he : exported loaded h name = some a) : procAddress loaded h name = a := by
  simp [procAddress, he]

theorem procAddress_of_none {loaded : List (HMODULE × Exports)} {h : HMODULE} {name : String}
    (he : exported loaded h name = none) : procAddress loaded h name = 0 := by
  simp [procAddress, he]

theorem procAddress_eq_zero_iff {loaded : List (HMODULE × Exports)} {h : HMODULE}
    {name : String} (hh : h ≠ 0) :
    procAddress loaded h name = 0 ↔ exported loaded h name = none := by
  constructor
  · intro hz
    cases he : exported loaded h name with
    | none => rfl
    | some a =>
      have h1 := procAddress_of_some he
      have h2 := exported_ne_zero hh he
      exact absurd (h1 ▸ hz) h2
  · exact procAddress_of_none

theorem GetFunctionAddress_loaded (NDEBUG : Bool) (os : Os) (self : Mono) (name : String)
    (hl : self.MonoDllModule ≠ 0) :
    self.GetFunctionAddress NDEBUG os name =
      ({ os with trace := os.trace ++ [OsCall.GetProcAddress self.MonoDllModule name] },
       Except.ok (procAddress os.loaded self.MonoDllModule name)) := by
  simp [Mono.GetFunctionAddress, hl, Os.GetProcAddress]

theorem GetFunctionAddress_assert (os : Os) (self : Mono) (name : String)
    (h0 : self.MonoDllModule = 0) :
    self.GetFunctionAddress false os name = (os, Except.error Failure.AssertionFailed) := by
  simp [Mono.GetFunctionAddress, h0]

theorem GetFunctionAddress_no_assert (os : Os) (self : Mono) (name : String) :
    self.GetFunctionAddress true os name =
      ({ os with trace := os.trace ++ [OsCall.GetProcAddress self.MonoDllModule name] },
       Except.ok (procAddress os.loaded self.MonoDllModule name)) := by
  simp [Mono.GetFunctionAddress, Os.GetProcAddress]

theorem slot_setSlot (self : Mono) (s t : Slot) (v : FARPROC) :
    (self.setSlot s v).slot t = if t = s then v else self.slot t := by
  cases s <;> cases t <;> rfl

theorem MonoDllModule_setSlot (self : Mono) (s : Slot) (v : FARPROC) :
    (self.setSlot s v).MonoDllModule = self.MonoDllModule := by
  cases s <;> rfl

theorem slot_store (self : Mono) (tbl : List (String × FARPROC)) (s : Slot) :
    (self.store tbl).slot s = pick tbl s.name (self.slot s) := by
  cases s <;> rfl

theorem slot_fresh (s : Slot) : ({} : Mono).slot s = 0 := by
  cases s <;> rfl

/-! ## The per-symbol loop in the loaded state -/

theorem resolveLoop_loaded (NDEBUG : Bool) (self : Mono) (hl : self.MonoDllModule ≠ 0) :
    ∀ (specs : List String) (os : Os),
      resolveLoop NDEBUG os self specs =
        ({ os with trace := os.trace ++ specs.map (OsCall.GetProcAddress self.MonoDllModule) },
         Except.ok
           (specs.map (fun n => (n, procAddress os.loaded self.MonoDllModule n)),
            specs.filter (fun n => decide (procAddress os.loaded self.MonoDllModule n = 0)))) := by
  intro specs
  induction specs with
  | nil => intro os; simp [resolveLoop]
  | cons name rest ih =>
    intro os
    simp only [resolveLoop, GetFunctionAddress_loaded NDEBUG os self name hl, ih]
    by_cases hz : procAddress os.loaded self.MonoDllModule name = 0
    · simp [hz, List.filter_cons]
    · simp [hz, List.filter_cons]

theorem Resolve_loaded (NDEBUG : Bool) (os : Os) (self : Mono) (specs : List String)
    (hl : self.MonoDllModule ≠ 0) :
    self.Resolve NDEBUG os specs =
      ({ os with trace := os.trace ++ specs.map (OsCall.GetProcAddress self.MonoDllModule) },
       self.store (specs.map (fun n => (n, procAddress os.loaded self.MonoDllModule n))),
       Except.ok
         ⟨specs.map (fun n => (n, procAddress os.loaded self.MonoDllModule n)),
          specs.filter (fun n => decide (procAddress os.loaded self.MonoDllModule n = 0))⟩) := by
  simp [Mono.Resolve, hl, resolveLoop_loaded NDEBUG self hl]

theorem lookup_map_self (f : String → FARPROC) (x : String) :
    ∀ specs : List String, x ∈ specs → (specs.map (fun n => (n, f n))).lookup x = some (f x) := by
  intro specs
  induction specs with
  | nil => intro hx; cases hx
  | cons n rest ih =>
    intro hx
    by_cases hxn : x = n
    · subst hxn
      simp [List.lookup]
    · have hr : x ∈ rest := by
        cases hx with
        | head => exact absurd rfl hxn
        | tail _ h => exact h
      have hb : (x == n) = false := by simpa using hxn
      simp [List.lookup, hb, ih hr]

theorem Get_of_mem (f : String → FARPROC) (specs bad : List String) (x : String)
    (hx : x ∈ specs) :
    Resolved.Get ⟨specs.map (fun n => (n, f n)), bad⟩ x = f x := by
  simp [Resolved.Get, lookup_map_self f x specs hx]

theorem pick_of_mem (f : String → FARPROC) (specs : List String) (x : String) (old : FARPROC)
    (hx : x ∈ specs) :
    pick (specs.map (fun n => (n, f n))) x old = f x := by
  simp [pick, lookup_map_self f x specs hx]

theorem filter_eq_singleton (p : String → Bool) (n : String) :
    ∀ l : List String, l.Nodup → n ∈ l → (∀ x ∈ l, p x = true ↔ x = n) → l.filter p = [n] := by
  intro l
  induction l with
  | nil => intro _ hn; cases hn
  | cons a rest ih =>
    intro hnd hn hp
    have hnd2 := List.nodup_cons.mp hnd
    by_cases han : a = n
    · subst han
      have hpa : p a = true := (hp a (List.mem_cons_self a rest)).mpr rfl
      have hrest : rest.filter p = [] := by
        apply List.filter_eq_nil_iff.mpr
        intro x hx hpx
        have hxa : x = a := (hp x (List.mem_cons_of_mem a hx)).mp hpx
        exact hnd2.1 (hxa ▸ hx)
      simp [List.filter_cons, hpa, hrest]
    · have hpa : p a = false := by
        cases hq : p a with
        | false => rfl
        | true => exact absurd ((hp a (List.mem_cons_self a rest)).mp hq) han
      have hn2 : n ∈ rest := by
        cases hn with
        | head => exact absurd rfl han
        | tail _ h => exact h
      have := ih hnd2.2 hn2 (fun x hx => hp x (List.mem_cons_of_mem a hx))
      simp [List.filter_cons, hpa, this]

/-! ## Resolution of a single symbol -/

/-- C1: for a loader holding a library handle and any symbol name, in either
build (assertions enabled or compiled out), GetFunctionAddress returns exactly the address the mapped library exports under
that name, returns the null marker exactly when the library has no export of
that name, and a slot assigned from the result reads back as that value, which
is either the export's address or the null marker. -/
theorem GetFunctionAddress_exact (NDEBUG : Bool) (os : Os) (self : Mono) (name : String)
    (hl : self.MonoDllModule ≠ 0) :
    (∀ a, exported os.loaded self.MonoDllModule name = some a →
        (self.GetFunctionAddress NDEBUG os name).2 = Except.ok a) ∧
    ((self.GetFunctionAddress NDEBUG os name).2 = Except.ok 0 ↔
        exported os.loaded self.MonoDllModule name = none) ∧
    (∃ p, (self.GetFunctionAddress NDEBUG os name).2 = Except.ok p ∧
        (p = 0 ∨ exported os.loaded self.MonoDllModule name = some p) ∧
        ∀ s : Slot, (self.setSlot s p).slot s = p) := by
  rw [GetFunctionAddress_loaded NDEBUG os self name hl]
  refine ⟨?_, ?_, ?_⟩
  · intro a ha
    simp [procAddress_of_some ha]
  · constructor
    · intro h
      have hz : procAddress os.loaded self.MonoDllModule name = 0 := by
        injection h
      exact (procAddress_eq_zero_iff hl).mp hz
    · intro h
      simp [procAddress_of_none h]
  · refine ⟨procAddress os.loaded self.MonoDllModule name, rfl, ?_, ?_⟩
    · cases he : exported os.loaded self.MonoDllModule name with
      | none => exact Or.inl (procAddress_of_none he)
      | some a => exact Or.inr (by rw [procAddress_of_some he])
    · intro s
      simp [slot_setSlot]

theorem GetFunctionAddress_exact_witness :
    testMono.MonoDllModule ≠ 0 ∧
    (testMono.GetFunctionAddress false testOsLoaded "alpha").2 = Except.ok 4112 ∧
    ((testMono.GetFunctionAddress false testOsLoaded "gamma").2 = Except.ok 0 ↔
        exported testOsLoaded.loaded testMono.MonoDllModule "gamma" = none) :=
  ⟨by decide,
   (GetFunctionAddress_exact false testOsLoaded testMono "alpha" (by decide)).1 4112 rfl,
   (GetFunctionAddress_exact false testOsLoaded testMono "gamma" (by decide)).2.1⟩

/-! ## Resolve -/

/-- C2: in the loaded state, when the library exports every name of the spec
list except exactly one name `n`, Resolve succeeds, the list of failed names
has `n` and nothing else (and is `[n]` when the spec list has no repeats),
Get of `n` is the absent marker (also in the field declared under that name),
and every other name of the list reads as the library's export.  On the test
library exporting `alpha` and `beta`, loading it and resolving
`[alpha, beta, gamma]` gives `alpha` and `beta` their addresses, `gamma` the
absent marker, and the failed names `[gamma]`. -/
theorem Resolve_missing_one (NDEBUG : Bool) (os : Os) (self : Mono) (specs : List String) (n : String)
    (hl : self.MonoDllModule ≠ 0) (hn : n ∈ specs)
    (hmiss : exported os.loaded self.MonoDllModule n = none)
    (hrest : ∀ x ∈ specs, x ≠ n → exported os.loaded self.MonoDllModule x ≠ none) :
    (∃ r, (self.Resolve NDEBUG os specs).2.2 = Except.ok r ∧
        (∀ x, x ∈ r.unresolved ↔ x = n) ∧
        (specs.Nodup → r.unresolved = [n]) ∧
        r.Get n = 0 ∧
        (∀ s : Slot, s.name = n → (self.Resolve NDEBUG os specs).2.1.slot s = 0) ∧
        (∀ x ∈ specs, x ≠ n →
            exported os.loaded self.MonoDllModule x = some (r.Get x)) ∧
        (∀ s : Slot, s.name ∈ specs → s.name ≠ n →
            exported os.loaded self.MonoDllModule s.name =
              some ((self.Resolve NDEBUG os specs).2.1.slot s))) ∧
    ((({} : Mono).Load testOs "test.dll").2.1.Resolve NDEBUG
        (({} : Mono).Load testOs "test.dll").1 ["alpha", "beta", "gamma"]).2.2 =
      Except.ok ⟨[("alpha", 4112), ("beta", 4128), ("gamma", 0)], ["gamma"]⟩ := by
  refine ⟨?_, by cases NDEBUG <;> rfl⟩
  rw [Resolve_loaded NDEBUG os self specs hl]
  have hzero : ∀ x ∈ specs, (procAddress os.loaded self.MonoDllModule x = 0 ↔ x = n) := by
    intro x hx
    constructor
    · intro hz
      by_contra hxn
      exact hrest x hx hxn ((procAddress_eq_zero_iff hl).mp hz)
    · intro hxn
      subst hxn
      exact procAddress_of_none hmiss
  have hsome : ∀ x ∈ specs, x ≠ n →
      exported os.loaded self.MonoDllModule x =
        some (procAddress os.loaded self.MonoDllModule x) := by
    intro x hx hxn
    cases he : exported os.loaded self.MonoDllModule x with
    | none => exact absurd he (hrest x hx hxn)
    | some a => rw [procAddress_of_some he]
  refine ⟨_, rfl, ?_, ?_, ?_, ?_, ?_, ?_⟩
  · intro x
    simp only [List.mem_filter, decide_eq_true_eq]
    constructor
    · rintro ⟨hx, hz⟩
      exact (hzero x hx).mp hz
    · intro hxn
      subst hxn
      exact ⟨hn, procAddress_of_none hmiss⟩
  · intro hnd
    apply filter_eq_singleton _ n specs hnd hn
    intro x hx
    simp only [decide_eq_true_eq]
    exact hzero x hx
  · rw [Get_of_mem _ specs _ n hn]
    exact procAddress_of_none hmiss
  · intro s hs
    show (self.store _).slot s = 0
    rw [slot_store, hs, pick_of_mem _ specs n _ hn]
    exact procAddress_of_none hmiss
  · intro x hx hxn
    rw [Get_of_mem _ specs _ x hx]
    exact hsome x hx hxn
  · intro s hs hsn
    show _ = some ((self.store _).slot s)
    rw [slot_store, pick_of_mem _ specs s.name _ hs]
    exact hsome s.name hs hsn

theorem Resolve_missing_one_witness :
    testMono.MonoDllModule ≠ 0 ∧ "gamma" ∈ ["alpha", "beta", "gamma"] ∧
    ∃ r, (testMono.Resolve false testOsLoaded ["alpha", "beta", "gamma"]).2.2 = Except.ok r ∧
        (∀ x, x ∈ r.unresolved ↔ x = "gamma") ∧ r.Get "gamma" = 0 :=
  ⟨by decide, by decide,
   (Resolve_missing_one false testOsLoaded testMono ["alpha", "beta", "gamma"] "gamma"
      (by decide) (by decide) (by decide) (by decide)).1.elim
     (fun r h => ⟨r, h.1, h.2.1, h.2.2.2.1⟩)⟩

/-- C3: in the loaded state, when the library exports every name of the spec
list, Resolve succeeds, no name of the list reads as the unresolved marker
(neither from the produced table nor from the field declared under that name),
and the list of failed names is empty. -/
theorem Resolve_all_exported (NDEBUG : Bool) (os : Os) (self : Mono) (specs : List String)
    (hl : self.MonoDllModule ≠ 0)
    (hall : ∀ x ∈ specs, exported os.loaded self.MonoDllModule x ≠ none) :
    ∃ r, (self.Resolve NDEBUG os specs).2.2 = Except.ok r ∧
      r.unresolved = [] ∧
      (∀ x ∈ specs, r.Get x ≠ 0 ∧ exported os.loaded self.MonoDllModule x = some (r.Get x)) ∧
      (∀ s : Slot, s.name ∈ specs → (self.Resolve NDEBUG os specs).2.1.slot s ≠ 0) := by
  rw [Resolve_loaded NDEBUG os self specs hl]
  have hnz : ∀ x ∈ specs, procAddress os.loaded self.MonoDllModule x ≠ 0 := by
    intro x hx hz
    exact hall x hx ((procAddress_eq_zero_iff hl).mp hz)
  refine ⟨_, rfl, ?_, ?_, ?_⟩
  · apply List.filter_eq_nil_iff.mpr
    intro x hx
    simpa using hnz x hx
  · intro x hx
    rw [Get_of_mem _ specs _ x hx]
    refine ⟨hnz x hx, ?_⟩
    cases he : exported os.loaded self.MonoDllModule x with
    | none => exact absurd he (hall x hx)
    | some a => rw [procAddress_of_some he]
  · intro s hs
    show (self.store _).slot s ≠ 0
    rw [slot_store, pick_of_mem _ specs s.name _ hs]
    exact hnz s.name hs

theorem Resolve_all_exported_witness :
    (({} : Mono).Load monoOs "mono.dll").2.1.MonoDllModule ≠ 0 ∧
    ∃ r, ((({} : Mono).Load monoOs "mono.dll").2.1.Resolve true
          (({} : Mono).Load monoOs "mono.dll").1 declaredNames).2.2 = Except.ok r ∧
      r.unresolved = [] ∧
      (∀ s : Slot, s.name ∈ declaredNames →
        ((({} : Mono).Load monoOs "mono.dll").2.1.Resolve true
          (({} : Mono).Load monoOs "mono.dll").1 declaredNames).2.1.slot s ≠ 0) :=
  ⟨by decide,
   (Resolve_all_exported true (({} : Mono).Load monoOs "mono.dll").1
      (({} : Mono).Load monoOs "mono.dll").2.1 declaredNames (by decide) (by decide)).elim
     (fun r h => ⟨r, h.1, h.2.1, h.2.2.2⟩)⟩

/-- C4, as stated, fails: in a build with `NDEBUG` defined the assertion is
compiled out, and a lookup on a freshly constructed loader (null module handle)
calls GetProcAddress with the null handle and returns its result as a normal
value: a library lookup is made and nothing fails. -/
theorem lookup_made_without_assert :
    ({} : Mono).MonoDllModule = 0 ∧
    (({} : Mono).GetFunctionAddress true testOs "alpha").2 = Except.ok 0 ∧
    (({} : Mono).GetFunctionAddress true testOs "alpha").1.trace =
      [OsCall.GetProcAddress 0 "alpha"] ∧
    lookups testOs.trace = 0 ∧
    lookups (({} : Mono).GetFunctionAddress true testOs "alpha").1.trace = 1 ∧
    ¬ (∀ (NDEBUG : Bool) (os : Os) (self : Mono) (name : String), self.MonoDllModule = 0 →
        (∃ e, (self.GetFunctionAddress NDEBUG os name).2 = Except.error e) ∧
        lookups (self.GetFunctionAddress NDEBUG os name).1.trace = lookups os.trace) := by
  refine ⟨rfl, rfl, rfl, rfl, rfl, ?_⟩
  intro h
  have h1 := (h true testOs {} "alpha" rfl).2
  exact absurd h1 (by decide)

/-- C4, amended: on a loader whose module handle is null a GetFunctionAddress
lookup depends on the build.  With assertions enabled (`NDEBUG` not defined) it
stops at `assert(MonoDllModule)`, which aborts the process: no platform call is
made and no value is produced.  With `NDEBUG` defined the assertion is compiled
out: GetProcAddress is called once with the null handle and its result is
returned as a normal value.  In neither build does the lookup change the module
handle or any slot. -/
theorem GetFunctionAddress_null_handle (os : Os) (self : Mono) (name : String)
    (h0 : self.MonoDllModule = 0) :
    self.GetFunctionAddress false os name = (os, Except.error Failure.AssertionFailed) ∧
    lookups (self.GetFunctionAddress false os name).1.trace = lookups os.trace ∧
    (self.GetFunctionAddress true os name).2 = Except.ok (procAddress os.loaded 0 name) ∧
    (self.GetFunctionAddress true os name).1.trace =
      os.trace ++ [OsCall.GetProcAddress 0 name] ∧
    lookups (self.GetFunctionAddress true os name).1.trace = lookups os.trace + 1 ∧
    (∀ NDEBUG : Bool,
      (self.GetFunctionAddressStep NDEBUG os name).2.1 = self ∧
      (self.GetFunctionAddressStep NDEBUG os name).2.1.MonoDllModule = 0 ∧
      ∀ s : Slot, (self.GetFunctionAddressStep NDEBUG os name).2.1.slot s = self.slot s) := by
  refine ⟨GetFunctionAddress_assert os self name h0, ?_, ?_, ?_, ?_, ?_⟩
  · rw [GetFunctionAddress_assert os self name h0]
  · rw [GetFunctionAddress_no_assert os self name, h0]
  · rw [GetFunctionAddress_no_assert os self name, h0]
  · rw [GetFunctionAddress_no_assert os self name]
    simp [lookups, List.filter_append]
  · intro NDEBUG
    exact ⟨rfl, h0, fun _ => rfl⟩

theorem GetFunctionAddress_null_handle_witness :
    ({} : Mono).MonoDllModule = 0 ∧
    ({} : Mono).GetFunctionAddress false testOs "alpha" =
      (testOs, Except.error Failure.AssertionFailed) ∧
    lookups (({} : Mono).GetFunctionAddress true testOs "alpha").1.trace =
      lookups testOs.trace + 1 :=
  ⟨rfl,
   (GetFunctionAddress_null_handle testOs {} "alpha" rfl).1,
   (GetFunctionAddress_null_handle testOs {} "alpha" rfl).2.2.2.2.1⟩

/-- C5: in the loaded state Resolve succeeds for every list of symbol names, in
either build: the assertion in GetFunctionAddress holds on every lookup, the table has one
outcome per name in the order of the list, one library lookup was made per
name, and a name the library does not export is recorded with the unresolved
marker and listed among the failed names instead of aborting the batch. -/
theorem Resolve_total (NDEBUG : Bool) (os : Os) (self : Mono) (specs : List String)
    (hl : self.MonoDllModule ≠ 0) :
    (∀ (os1 : Os) (x : String), ∃ p, (self.GetFunctionAddress NDEBUG os1 x).2 = Except.ok p) ∧
    ∃ r, (self.Resolve NDEBUG os specs).2.2 = Except.ok r ∧
      r.table.map Prod.fst = specs ∧
      lookups (self.Resolve NDEBUG os specs).1.trace = lookups os.trace + specs.length ∧
      (∀ x ∈ specs, exported os.loaded self.MonoDllModule x = none →
        r.Get x = 0 ∧ x ∈ r.unresolved) ∧
      (∀ x ∈ r.unresolved, x ∈ specs ∧ r.Get x = 0) := by
  refine ⟨fun os1 x => ⟨_, by rw [GetFunctionAddress_loaded NDEBUG os1 self x hl]⟩, ?_⟩
  rw [Resolve_loaded NDEBUG os self specs hl]
  refine ⟨_, rfl, ?_, ?_, ?_, ?_⟩
  · simp [List.map_map, Function.comp_def]
  · simp [lookups, List.filter_append, List.filter_map, Function.comp_def]
  · intro x hx he
    rw [Get_of_mem _ specs _ x hx]
    refine ⟨procAddress_of_none he, ?_⟩
    simp only [List.mem_filter, decide_eq_true_eq]
    exact ⟨hx, procAddress_of_none he⟩
  · intro x hx
    simp only [List.mem_filter, decide_eq_true_eq] at hx
    rw [Get_of_mem _ specs _ x hx.1]
    exact hx

theorem Resolve_total_witness :
    testMono.MonoDllModule ≠ 0 ∧
    ∃ r, (testMono.Resolve false testOsLoaded ["gamma", "alpha", "delta"]).2.2 = Except.ok r ∧
      r.table.map Prod.fst = ["gamma", "alpha", "delta"] :=
  ⟨by decide,
   (Resolve_total true testOsLoaded testMono ["gamma", "alpha", "delta"] (by decide)).2.elim
     (fun r h => ⟨r, h.1, h.2.1⟩)⟩

/-! ## Load and Setup -/

theorem LoadLibrary_missing (os : Os) (path : String) (hno : os.disk.lookup path = none) :
    os.LoadLibrary path = ({ os with trace := os.trace ++ [OsCall.LoadLibrary path] }, 0) := by
  simp [Os.LoadLibrary, hno]

/-- C6: for a path at which no library exists and a loader in the unloaded
state, Load and Setup fail with LibraryLoadError naming the path; the loader is
left exactly as it was, so its module handle is still null; nothing is mapped
and no symbol lookup is made, so no table is produced; and on a freshly
constructed loader every slot still holds the unresolved marker. -/
theorem Setup_missing_library (NDEBUG : Bool) (os : Os) (self : Mono) (path : String)
    (h0 : self.MonoDllModule = 0) (hno : os.disk.lookup path = none) :
    (self.Load os path).2.2 = Except.error (Failure.LibraryLoadError path) ∧
    (self.Setup NDEBUG os path).2.2 = Except.error (Failure.LibraryLoadError path) ∧
    (self.Setup NDEBUG os path).2.1 = self ∧
    (self.Setup NDEBUG os path).2.1.MonoDllModule = 0 ∧
    (self.Setup NDEBUG os path).1.loaded = os.loaded ∧
    lookups (self.Setup NDEBUG os path).1.trace = lookups os.trace ∧
    (∀ s : Slot, (({} : Mono).Setup NDEBUG os path).2.1.slot s = 0) := by
  have hload : ∀ m : Mono, m.MonoDllModule = 0 →
      m.Load os path =
        ({ os with trace := os.trace ++ [OsCall.LoadLibrary path] }, m,
         Except.error (Failure.LibraryLoadError path)) := by
    intro m hm
    simp [Mono.Load, hm, LoadLibrary_missing os path hno]
  have hsetup : ∀ m : Mono, m.MonoDllModule = 0 →
      m.Setup NDEBUG os path =
        ({ os with trace := os.trace ++ [OsCall.LoadLibrary path] }, m,
         Except.error (Failure.LibraryLoadError path)) := by
    intro m hm
    simp [Mono.Setup, hload m hm]
  refine ⟨by rw [hload self h0], by rw [hsetup self h0], by rw [hsetup self h0], ?_, ?_, ?_, ?_⟩
  · rw [hsetup self h0]; exact h0
  · rw [hsetup self h0]
  · rw [hsetup self h0]; simp [lookups, List.filter_append]
  · intro s
    rw [hsetup {} rfl]
    exact slot_fresh s

theorem Setup_missing_library_witness :
    ({} : Mono).MonoDllModule = 0 ∧ testOs.disk.lookup "absent.dll" = none ∧
    (({} : Mono).Setup false testOs "absent.dll").2.2 =
      Except.error (Failure.LibraryLoadError "absent.dll") ∧
    (({} : Mono).Setup false testOs "absent.dll").2.1 = {} :=
  ⟨rfl, by decide,
   (Setup_missing_library false testOs {} "absent.dll" rfl (by decide)).2.1,
   (Setup_missing_library false testOs {} "absent.dll" rfl (by decide)).2.2.1⟩

/-! ## The public fields -/

/-- C7, as stated, fails: after a setup in which every declared name resolved,
a caller's plain assignment to the public field `g_free` replaces the resolved
address by the null pointer. -/
theorem table_not_read_only :
    (({} : Mono).Setup false monoOs "mono.dll").2.1.slot Slot.g_free = 65792 ∧
    ((CallerOp.Write Slot.g_free 0).run false (({} : Mono).Setup false monoOs "mono.dll").1
        (({} : Mono).Setup false monoOs "mono.dll").2.1).2.slot Slot.g_free = 0 ∧
    ¬ (∀ (NDEBUG : Bool) (os : Os) (self : Mono) (op : CallerOp) (s : Slot),
        (op.run NDEBUG os self).2.slot s = self.slot s) := by
  refine ⟨rfl, rfl, ?_⟩
  intro h
  have h1 := h false (({} : Mono).Setup false monoOs "mono.dll").1 (({} : Mono).Setup false monoOs "mono.dll").2.1
    (CallerOp.Write Slot.g_free 0) Slot.g_free
  exact absurd h1 (by decide)

/-- C7, amended: reading a slot changes no slot, nor the module handle, nor the
environment; the slots are public fields that are not `const`, and a caller's
assignment to one changes exactly that slot to the assigned value, leaving the
other slots, the module handle and the environment as they were. -/
theorem reads_leave_table_unchanged (NDEBUG : Bool) (os : Os) (self : Mono) (s : Slot) :
    (CallerOp.Read s).run NDEBUG os self = (os, self) ∧
    (∀ (v : FARPROC) (t : Slot),
      ((CallerOp.Write s v).run NDEBUG os self).2.slot t = if t = s then v else self.slot t) ∧
    (∀ v : FARPROC,
      ((CallerOp.Write s v).run NDEBUG os self).2.MonoDllModule = self.MonoDllModule ∧
      ((CallerOp.Write s v).run NDEBUG os self).1 = os) := by
  refine ⟨rfl, ?_, ?_⟩
  · intro v t
    exact slot_setSlot self s t v
  · intro v
    exact ⟨MonoDllModule_setSlot self s v, rfl⟩

/-! ## Unload and destruction -/

theorem UnloadTimes_unloaded (k : Nat) :
    ∀ (os : Os) (self : Mono), self.MonoDllModule = 0 →
      Mono.UnloadTimes k os self = (os, self) := by
  induction k with
  | zero => intro os self _; rfl
  | succ k ih =>
    intro os self h0
    have hu : self.Unload os = (os, self) := by simp [Mono.Unload, h0]
    simp only [Mono.UnloadTimes, hu]
    exact ih os self h0

/-- C8, as stated, fails: the class is copyable, a copy of a loader holds the
same non-null module handle, and destroying the loader and then its copy
releases the library twice, the second time after it is no longer mapped. -/
theorem handle_duplicated_by_copy :
    testMono.copy.MonoDllModule = testMono.MonoDllModule ∧
    testMono.MonoDllModule = 4096 ∧
    releases 4096 testOsLoaded.trace = 0 ∧
    releases 4096 (testMono.Unload testOsLoaded).1.trace = 1 ∧
    (testMono.Unload testOsLoaded).1.loaded = [] ∧
    releases 4096 (testMono.copy.Unload (testMono.Unload testOsLoaded).1).1.trace = 2 ∧
    ¬ (∀ (os : Os) (self : Mono), self.MonoDllModule ≠ 0 →
        releases self.MonoDllModule (self.copy.Unload (self.Unload os).1).1.trace ≤
          releases self.MonoDllModule os.trace + 1) := by
  refine ⟨by decide, by decide, by decide, by decide, by decide, by decide, ?_⟩
  intro h
  exact absurd (h testOsLoaded testMono (by decide)) (by decide)

/-- C8, amended: for a loader object that holds a library handle, running
Unload or destruction on that object any number of times (at least once)
releases the library exactly once: the platform sees one FreeLibrary call for
the handle and no other call, and the object ends with a null handle and every
slot unresolved.  A copy of the object holds the same handle. -/
theorem Unload_releases_once (os : Os) (self : Mono) (k : Nat)
    (hl : self.MonoDllModule ≠ 0) (hk : 0 < k) :
    (Mono.UnloadTimes k os self).1 = os.FreeLibrary self.MonoDllModule ∧
    (Mono.UnloadTimes k os self).1.trace =
      os.trace ++ [OsCall.FreeLibrary self.MonoDllModule] ∧
    releases self.MonoDllModule (Mono.UnloadTimes k os self).1.trace =
      releases self.MonoDllModule os.trace + 1 ∧
    (Mono.UnloadTimes k os self).2 = {} ∧
    (Mono.UnloadTimes k os self).2.MonoDllModule = 0 ∧
    self.copy.MonoDllModule = self.MonoDllModule := by
  obtain ⟨j, rfl⟩ : ∃ j, k = j + 1 := ⟨k - 1, by omega⟩
  have hu : self.Unload os = (os.FreeLibrary self.MonoDllModule, {}) := by
    simp [Mono.Unload, hl]
  have hall : Mono.UnloadTimes (j + 1) os self = (os.FreeLibrary self.MonoDllModule, {}) := by
    simp only [Mono.UnloadTimes, hu]
    exact UnloadTimes_unloaded j _ _ rfl
  rw [hall]
  refine ⟨rfl, rfl, ?_, rfl, rfl, rfl⟩
  simp [releases, Os.FreeLibrary, List.count_append]

theorem Unload_releases_once_witness :
    testMono.MonoDllModule ≠ 0 ∧ 0 < 3 ∧
    releases testMono.MonoDllModule (Mono.UnloadTimes 3 testOsLoaded testMono).1.trace =
      releases testMono.MonoDllModule testOsLoaded.trace + 1 :=
  ⟨by decide, by decide,
   (Unload_releases_once testOsLoaded testMono 3 (by decide) (by decide)).2.2.1⟩

/-! ## Get -/

/-- C9: for every loader state (in particular every state reached after a
Resolve) and every declared slot, Get leaves the environment unchanged, so no
library lookup is made, leaves the loader object unchanged, so the module
handle and every slot keep their values, and a second Get of the same slot
returns the same value as the first. -/
theorem Get_stable (os : Os) (self : Mono) (s : Slot) :
    (self.Get os s).1 = os ∧
    lookups (self.Get os s).1.trace = lookups os.trace ∧
    (self.Get os s).2.1 = self ∧
    (self.Get os s).2.1.MonoDllModule = self.MonoDllModule ∧
    (∀ t : Slot, (self.Get os s).2.1.slot t = self.slot t) ∧
    ((self.Get os s).2.1.Get (self.Get os s).1 s).2.2 = (self.Get os s).2.2 := by
  simp [Mono.Get]

/-- C10: a freshly constructed loader has a null module handle, and Get returns
the unresolved marker for each of the seventeen declared slots, whose declared
names are pairwise different. -/
theorem fresh_loader_unresolved (os : Os) :
    ({} : Mono).MonoDllModule = 0 ∧
    Slot.all.length = 17 ∧
    (∀ s : Slot, s ∈ Slot.all) ∧
    declaredNames.Nodup ∧
    (∀ s : Slot, (({} : Mono).Get os s).2.2 = 0) := by
  refine ⟨rfl, rfl, ?_, by decide, ?_⟩
  · intro s
    cases s <;> decide
  · intro s
    exact slot_fresh s

end MSCMP
